import Mathlib

/-!
# activate-linux: configuration assembly, daemonization and backend fallback

A shallow embedding of `src/activate_linux.c` (the `try_backend` macro and `main`).

* Calls into code that lives outside this file (libc `getopt`, `atof`, `atoi`, `fork`;
  `rgba_color_default`, `rgba_color_string`, `i18n_set_info`, and the two
  `*_backend_start` entry points) are taken from an explicit environment `Env`.
  The backends read the options they are handed and return a status; they do not
  change them.
* The option scanner is represented by the sequence of results that successive
  `getopt(argc, argv, "h?vqbwdilp:t:m:f:s:c:H:V:x:y:")` calls hand to the `switch`:
  the returned character together with `optarg`.  For the argument vector `-s -1`
  that sequence is the single entry `('s', "-1")`; an unrecognised option or a missing
  option argument is reported by `getopt` as the character `'?'`.
* Every externally visible action (`inc_verbose`, stderr output, `fork`, `setsid`,
  the backend entry points, ...) is recorded, in program order, in a trace of `Event`s.
* `float`/`double` values are modelled as exact rationals, C `int` as `Int`. The value
  `Env.atof` gives is the one stored in the `float` field `scale`.
* The exit status of a run is the value `main` returns or passes to `exit`; what the
  operating system keeps of it is outside the model.
-/

namespace ActivateLinux

/-! ## Data model -/

/-- The colour value of `color.h`: four components, a negative alpha marks a failed parse. -/
structure rgba_color where
  r : ℚ
  g : ℚ
  b : ℚ
  a : ℚ
deriving DecidableEq

/-- The fields of `struct draw_options` that `main` initialises (lines 30-50). -/
structure draw_options where
  title : Option String
  subtitle : Option String
  custom_font : String
  bold_mode : Bool
  slant_mode : Bool
  scale : ℚ
  overlay_width : Int
  overlay_height : Int
  offset_left : Int
  offset_top : Int
  text_color : rgba_color
  bypass_compositor : Bool
deriving DecidableEq

/-- The three admissible compile-time configurations; defining both `NO_WAYLAND` and
`NO_X11` is rejected by the `#error` on lines 15-17. -/
inductive Build where
  | both
  | wayland_only
  | x11_only
deriving DecidableEq

/-- Wayland support is compiled in: `#ifndef NO_WAYLAND`. -/
def Build.has_wayland : Build → Bool
  | .both => true
  | .wayland_only => true
  | .x11_only => false

/-- X11 support is compiled in: `#ifndef NO_X11`. -/
def Build.has_x11 : Build → Bool
  | .both => true
  | .wayland_only => false
  | .x11_only => true

/-- One result of `getopt`: the option character it returned and the value of `optarg`. -/
structure Scanned where
  opt : Char
  optarg : String
deriving DecidableEq

/-- The collaborators `main` calls but does not define. `fork` is the value the `fork()`
call returns in the process under consideration. `i18n_texts preset o` is the title and
subtitle that the preset resolver stores into the options `o` for `preset` (`none` is
the `NULL` of the autodetecting call). -/
structure Env where
  rgba_color_default : rgba_color
  rgba_color_string : String → rgba_color
  i18n_texts : Option String → draw_options → Option String × Option String
  atof : String → ℚ
  atoi : String → Int
  fork : Int
  wayland_backend_start : draw_options → Int
  x11_backend_start : draw_options → Int

/-- Externally visible actions of `main`, recorded in program order. -/
inductive Event where
  | inc_verbose
  | set_silent
  | i18n_list_presets
  | print_help (prog : String)
  | stderr (msg : String)
  | debug (msg : String)
  | fork
  | setsid
  | wayland_backend_start (o : draw_options)
  | x11_backend_start (o : draw_options)
deriving DecidableEq

/-- How the process ends: its exit status and everything it did before. -/
structure Outcome where
  code : Int
  trace : List Event
deriving DecidableEq

/-- The local variables of `main` that the option loop updates, with the trace so far. -/
structure State where
  options : draw_options
  daemonize : Bool
  trace : List Event
deriving DecidableEq

/-! ## The program -/

/-- The designated initialiser of `options` (lines 30-50). -/
def default_options (env : Env) : draw_options :=
  { title := none
    subtitle := none
    custom_font := ""
    bold_mode := false
    slant_mode := false
    scale := 1
    overlay_width := 340
    overlay_height := 120
    offset_left := 0
    offset_top := 0
    text_color := env.rgba_color_default
    bypass_compositor := false }

/-- Modelled from the spec: the body of `i18n_set_info` belongs to the i18n module and is
not in `activate_linux.c`. The resolver "fills `title`/`subtitle`" of the options it is
given and touches no other field. -/
def i18n_set_info (env : Env) (preset : Option String) (o : draw_options) : draw_options :=
  { o with title := (env.i18n_texts preset o).1, subtitle := (env.i18n_texts preset o).2 }

/-- State on entry to the option loop: `i18n_set_info(NULL, &options)` has run and
`daemonize` is `false` (lines 52-55). -/
def init_state (env : Env) : State :=
  { options := i18n_set_info env none (default_options env)
    daemonize := false
    trace := [] }

/-- The body of the `switch (opt)` (lines 59-169) for one scanned option. `Except.error`
is the process ending inside the loop (`return 1` or `exit(EXIT_SUCCESS)`); `Except.ok`
is reaching the end of the `switch`, after which the loop scans the next option.
A character with no `case` label leaves the state unchanged (there is no `default`). -/
def switch_opt (env : Env) (prog : String) (st : State) (s : Scanned) : Except Outcome State :=
  if s.opt = 'v' then
    .ok { st with trace := st.trace ++ [Event.inc_verbose] }
  else if s.opt = 'q' then
    .ok { st with trace := st.trace ++ [Event.set_silent] }
  else if s.opt = 'b' then
    .ok { st with options := { st.options with bold_mode := true } }
  else if s.opt = 'w' then
    .ok { st with options := { st.options with bypass_compositor := true } }
  else if s.opt = 'd' then
    .ok { st with daemonize := true }
  else if s.opt = 'i' then
    .ok { st with options := { st.options with slant_mode := true } }
  else if s.opt = 'p' then
    .ok { st with options := i18n_set_info env (some s.optarg) st.options }
  else if s.opt = 't' then
    .ok { st with options := { st.options with title := some s.optarg } }
  else if s.opt = 'm' then
    .ok { st with options := { st.options with subtitle := some s.optarg } }
  else if s.opt = 'f' then
    .ok { st with options := { st.options with custom_font := s.optarg } }
  else if s.opt = 's' then
    let scale := env.atof s.optarg
    if scale < 0 then
      .error ⟨1, st.trace ++ [Event.stderr "Error occurred during parsing custom scale.\n"]⟩
    else
      .ok { st with options := { st.options with scale := scale } }
  else if s.opt = 'c' then
    let text_color := env.rgba_color_string s.optarg
    if text_color.a < 0 then
      .error ⟨1, st.trace ++ [Event.stderr "Error occurred during parsing custom color.\n"]⟩
    else
      .ok { st with options := { st.options with text_color := text_color } }
  else if s.opt = 'H' then
    .ok { st with options := { st.options with offset_left := env.atoi s.optarg } }
  else if s.opt = 'V' then
    .ok { st with options := { st.options with offset_top := env.atoi s.optarg } }
  else if s.opt = 'x' then
    .ok { st with options := { st.options with overlay_width := env.atoi s.optarg } }
  else if s.opt = 'y' then
    .ok { st with options := { st.options with overlay_height := env.atoi s.optarg } }
  else if s.opt = '?' ∨ s.opt = 'l' then
    .error ⟨0, st.trace ++ [Event.i18n_list_presets]⟩
  else if s.opt = 'h' then
    .error ⟨0, st.trace ++ [Event.print_help prog]⟩
  else
    .ok st

/-- The `while ((opt = getopt(...)) != -1)` loop (line 58) over the scanner's results. -/
def scan_loop (env : Env) (prog : String) (st : State) : List Scanned → Except Outcome State
  | [] => .ok st
  | s :: rest =>
    match switch_opt env prog st s with
    | .error out => .error out
    | .ok st1 => scan_loop env prog st1 rest

/-- C `strncmp` on NUL-terminated strings given as their characters: the sign of the
result is that of the first difference within the first `n` characters, `0` if none. -/
def strncmp : List Char → List Char → Nat → Int
  | _, _, 0 => 0
  | [], [], _ + 1 => 0
  | [], b :: _, _ + 1 => 0 - (b.toNat : Int)
  | a :: _, [], _ + 1 => (a.toNat : Int)
  | a :: as, b :: bs, n + 1 =>
    if a = b then strncmp as bs n else (a.toNat : Int) - (b.toNat : Int)

/-- The `try_backend(X, ...)` macro (lines 19-25) after `X ## _backend_start` has returned
`ret`: `some r` when the expansion executes `return r`, `none` when control falls through
to the statement after the macro. `name` is the stringified `X`. -/
def try_backend (b : Build) (name : String) (ret : Int) : Option Int :=
  match b with
  | .both => if ret = 0 ∨ strncmp name.toList "x11".toList 3 = 0 then some ret else none
  | .wayland_only => some ret
  | .x11_only => some ret

/-- Lines 189-192: the X11 attempt, when compiled in, and the end of `main` (reaching the
closing brace of `main` is a `return 0`). -/
def x11_section (b : Build) (env : Env) (o : draw_options) (tr : List Event) : Outcome :=
  if b.has_x11 then
    let ret_x11 := env.x11_backend_start o
    let tr1 := tr ++ [Event.x11_backend_start o]
    match try_backend b "x11" ret_x11 with
    | some r => ⟨r, tr1⟩
    | none => ⟨0, tr1⟩
  else
    ⟨0, tr⟩

/-- Lines 185-192: the Wayland attempt, when compiled in, followed by the X11 section. -/
def wayland_section (b : Build) (env : Env) (o : draw_options) (tr : List Event) : Outcome :=
  if b.has_wayland then
    let ret_wayland := env.wayland_backend_start o
    let tr1 := tr ++ [Event.wayland_backend_start o]
    match try_backend b "wayland" ret_wayland with
    | some r => ⟨r, tr1⟩
    | none => x11_section b env o tr1
  else
    x11_section b env o tr

/-- Lines 172-192: what `main` does once the option loop has ended normally. -/
def after_loop (b : Build) (env : Env) (st : State) : Outcome :=
  let tr := st.trace ++ [Event.debug "Verbose mode activated\n"]
  if st.daemonize then
    let tr1 := tr ++ [Event.debug "Forking to background\n", Event.fork]
    if 0 < env.fork then
      ⟨0, tr1⟩
    else if env.fork = 0 then
      wayland_section b env st.options (tr1 ++ [Event.setsid])
    else
      wayland_section b env st.options tr1
  else
    wayland_section b env st.options tr

/-- The state in which the option loop ends normally, if it does: `some st` is
"configuration assembly passes with the configuration `st.options`". -/
def assembled (env : Env) (prog : String) (scan : List Scanned) : Option State :=
  match scan_loop env prog (init_state env) scan with
  | .error _ => none
  | .ok st => some st

/-- The function `main` (lines 28-192): `prog` is `argv[0]`, `scan` the results of the
successive `getopt` calls on the argument vector. -/
def main (b : Build) (env : Env) (prog : String) (scan : List Scanned) : Outcome :=
  match scan_loop env prog (init_state env) scan with
  | .error out => out
  | .ok st => after_loop b env st

/-! ## Observations on traces -/

/-- The two backend entry points. -/
inductive Backend where
  | wayland
  | x11
deriving DecidableEq

/-- The backend invocations of a trace, in order, each with the configuration it received. -/
def backend_calls : List Event → List (Backend × draw_options)
  | [] => []
  | Event.wayland_backend_start o :: tr => (Backend.wayland, o) :: backend_calls tr
  | Event.x11_backend_start o :: tr => (Backend.x11, o) :: backend_calls tr
  | _ :: tr => backend_calls tr

/-- The configurations handed to `wayland_backend_start`, in order. -/
def wayland_calls (tr : List Event) : List draw_options :=
  ((backend_calls tr).filter (fun p => p.1 = Backend.wayland)).map Prod.snd

/-- The configurations handed to `x11_backend_start`, in order. -/
def x11_calls (tr : List Event) : List draw_options :=
  ((backend_calls tr).filter (fun p => p.1 = Backend.x11)).map Prod.snd

/-! ## Test doubles -/

/-- A colour parser double: `"1.0-0.5-0.2-1.0"` parses, everything else is invalid. -/
def stub_color_string (s : String) : rgba_color :=
  if s = "1.0-0.5-0.2-1.0" then ⟨1, 1 / 2, 1 / 5, 1⟩ else ⟨0, 0, 0, -1⟩

/-- An `atof` double that knows three inputs; text without a leading number gives `0`. -/
def stub_atof (s : String) : ℚ :=
  if s = "-1" then -1 else if s = "2.5" then 5 / 2 else 0

/-- A preset resolver double: the preset `work`, and a fixed text for everything else. -/
def stub_texts (p : Option String) (_ : draw_options) : Option String × Option String :=
  if p = some "work" then
    (some "Activate Work", some "Go to Settings to activate Work.")
  else
    (some "Activate Linux", some "Go to Settings to activate Linux.")

/-- An environment of test doubles: `fork` returns `pid`, the Wayland backend returns `w`
and the X11 backend returns `x`. -/
def stub_env (pid w x : Int) : Env :=
  { rgba_color_default := ⟨1, 1, 1, 1⟩
    rgba_color_string := stub_color_string
    i18n_texts := stub_texts
    atof := stub_atof
    atoi := fun _ => 0
    fork := pid
    wayland_backend_start := fun _ => w
    x11_backend_start := fun _ => x }

/-! ## Vocabulary of the specification -/

/-- A terminal flag: `-l`, `-h`, or anything the scanner reports as `'?'` (the option
`-?` itself, an unrecognised option, a missing option argument). -/
def is_terminal (s : Scanned) : Prop :=
  s.opt = 'l' ∨ s.opt = 'h' ∨ s.opt = '?'

/-- A failing `-s` (negative parsed scale) or a failing `-c` (negative-alpha sentinel). -/
def is_failing (env : Env) (s : Scanned) : Prop :=
  (s.opt = 's' ∧ env.atof s.optarg < 0) ∨
    (s.opt = 'c' ∧ (env.rgba_color_string s.optarg).a < 0)

/-- A decisive flag: one that is terminal or failing. -/
def is_decisive (env : Env) (s : Scanned) : Prop :=
  is_terminal s ∨ is_failing env s

instance : DecidablePred is_terminal := fun s => by
  unfold is_terminal; infer_instance

instance (env : Env) : DecidablePred (is_failing env) := fun s => by
  unfold is_failing; infer_instance

instance (env : Env) : DecidablePred (is_decisive env) := fun s => by
  unfold is_decisive; infer_instance

/-- The events the option loop records when it goes on scanning. -/
def is_log_event (e : Event) : Prop :=
  e = Event.inc_verbose ∨ e = Event.set_silent

/-- The argument vector with every `-d` removed. -/
def without_d (scan : List Scanned) : List Scanned :=
  scan.filter (fun s => decide (s.opt ≠ 'd'))

/-- The option characters that have a `case` label in the `switch`. -/
def case_labels : List Char :=
  ['v', 'q', 'b', 'w', 'd', 'i', 'p', 't', 'm', 'f', 's', 'c', 'H', 'V', 'x', 'y', '?', 'l', 'h']

/-- The part of the trace that `main` records between the end of the option loop and the
first backend attempt, in a process that gets that far. -/
def lifecycle_events (env : Env) (st : State) : List Event :=
  [Event.debug "Verbose mode activated\n"] ++
    (if st.daemonize then
      [Event.debug "Forking to background\n", Event.fork] ++
        (if env.fork = 0 then [Event.setsid] else [])
    else [])

/-- The backend that `main` tries first in a build. -/
def first_backend (b : Build) : Backend :=
  if b.has_wayland then Backend.wayland else Backend.x11

/-! ## Lemmas on traces -/

theorem backend_calls_append (xs ys : List Event) :
    backend_calls (xs ++ ys) = backend_calls xs ++ backend_calls ys := by
  induction xs with
  | nil => rfl
  | cons e xs ih => cases e <;> simp [backend_calls, ih]

theorem backend_calls_of_log (tr : List Event) (h : ∀ e ∈ tr, is_log_event e) :
    backend_calls tr = [] := by
  induction tr with
  | nil => rfl
  | cons e tr ih =>
    have he := h e (List.mem_cons_self e tr)
    have ht : ∀ x ∈ tr, is_log_event x := fun x hx => h x (List.mem_cons_of_mem e hx)
    rcases he with he | he <;> subst he <;> simpa [backend_calls] using ih ht

theorem not_mem_of_log (tr : List Event) (h : ∀ e ∈ tr, is_log_event e) (x : Event)
    (hx : ¬ is_log_event x) : x ∉ tr :=
  fun hmem => hx (h x hmem)

/-! ## Lemmas on one pass through the `switch` -/

theorem switch_opt_terminal (env : Env) (prog : String) (st : State) (s : Scanned)
    (h : is_terminal s) :
    switch_opt env prog st s =
      .error ⟨0, st.trace ++
        [if s.opt = 'h' then Event.print_help prog else Event.i18n_list_presets]⟩ := by
  rcases h with h | h | h <;> simp [switch_opt, h]

theorem switch_opt_failing (env : Env) (prog : String) (st : State) (s : Scanned)
    (h : is_failing env s) :
    ∃ msg, switch_opt env prog st s = .error ⟨1, st.trace ++ [Event.stderr msg]⟩ := by
  rcases h with ⟨h, hneg⟩ | ⟨h, hneg⟩
  · exact ⟨"Error occurred during parsing custom scale.\n", by simp [switch_opt, h, hneg]⟩
  · exact ⟨"Error occurred during parsing custom color.\n", by simp [switch_opt, h, hneg]⟩

theorem switch_opt_no_label (env : Env) (prog : String) (st : State) (s : Scanned)
    (h : s.opt ∉ case_labels) : switch_opt env prog st s = .ok st := by
  simp only [case_labels, List.mem_cons, List.mem_singleton, not_or, List.mem_nil_iff,
    or_false] at h
  simp [switch_opt, h]

theorem switch_opt_ok_of_not_decisive (env : Env) (prog : String) (st : State) (s : Scanned)
    (h : ¬ is_decisive env s) : ∃ st1, switch_opt env prog st s = .ok st1 := by
  simp only [is_decisive, is_terminal, is_failing, not_or, not_and, not_lt] at h
  obtain ⟨⟨hl, hh, hq⟩, hs, hc⟩ := h
  by_cases hm : s.opt ∈ case_labels
  · simp only [case_labels, List.mem_cons, List.mem_singleton, List.mem_nil_iff,
      or_false] at hm
    rcases hm with (e | e | e | e | e | e | e | e | e | e | e | e | e | e | e | e | e | e | e)
    all_goals first
      | exact absurd e hl
      | exact absurd e hh
      | exact absurd e hq
      | simp [switch_opt, e, not_lt.mpr (hs e)]
      | simp [switch_opt, e, not_lt.mpr (hc e)]
      | simp [switch_opt, e]
  · exact ⟨st, switch_opt_no_label env prog st s hm⟩

theorem switch_opt_ok_inv (env : Env) (prog : String) (st st1 : State) (s : Scanned)
    (h : switch_opt env prog st s = .ok st1) :
    (∀ e ∈ st1.trace, e ∈ st.trace ∨ is_log_event e) ∧
      (0 ≤ st.options.scale → 0 ≤ st1.options.scale) ∧
      (0 ≤ st.options.text_color.a → 0 ≤ st1.options.text_color.a) := by
  by_cases hm : s.opt ∈ case_labels
  · simp only [case_labels, List.mem_cons, List.mem_singleton, List.mem_nil_iff,
      or_false] at hm
    rcases hm with (e | e | e | e | e | e | e | e | e | e | e | e | e | e | e | e | e | e | e)
    all_goals simp [switch_opt, e] at h
    all_goals first
      | (subst h; simp [is_log_event, i18n_set_info]; done)
      | (subst h; simp [is_log_event, i18n_set_info]; tauto)
      | (split_ifs at h with hneg
         simp only [Except.ok.injEq] at h
         subst h
         have hge := not_lt.mp hneg
         simp [hge]
         tauto)
  · rw [switch_opt_no_label env prog st s hm] at h
    cases h
    simp
    tauto

theorem switch_opt_error_decisive (env : Env) (prog : String) (st : State) (s : Scanned)
    (out : Outcome) (h : switch_opt env prog st s = .error out) : is_decisive env s := by
  by_contra hn
  obtain ⟨st1, h1⟩ := switch_opt_ok_of_not_decisive env prog st s hn
  rw [h1] at h
  cases h

/-! ## Lemmas on the option loop -/

theorem scan_loop_append (env : Env) (prog : String) (xs ys : List Scanned) (st : State) :
    scan_loop env prog st (xs ++ ys) =
      match scan_loop env prog st xs with
      | .error out => .error out
      | .ok st1 => scan_loop env prog st1 ys := by
  induction xs generalizing st with
  | nil => rfl
  | cons x xs ih =>
    simp only [List.cons_append, scan_loop]
    cases hx : switch_opt env prog st x with
    | error out => rfl
    | ok st1 => exact ih st1

theorem scan_loop_ok_inv (env : Env) (prog : String) (scan : List Scanned) (st st1 : State)
    (h : scan_loop env prog st scan = .ok st1) :
    (∀ e ∈ st1.trace, e ∈ st.trace ∨ is_log_event e) ∧
      (0 ≤ st.options.scale → 0 ≤ st1.options.scale) ∧
      (0 ≤ st.options.text_color.a → 0 ≤ st1.options.text_color.a) := by
  induction scan generalizing st with
  | nil =>
    simp only [scan_loop, Except.ok.injEq] at h
    subst h
    exact ⟨fun e he => Or.inl he, id, id⟩
  | cons x xs ih =>
    simp only [scan_loop] at h
    cases hx : switch_opt env prog st x with
    | error out => rw [hx] at h; cases h
    | ok st2 =>
      rw [hx] at h
      obtain ⟨t1, s1, a1⟩ := switch_opt_ok_inv env prog st st2 x hx
      obtain ⟨t2, s2, a2⟩ := ih st2 h
      refine ⟨fun e he => ?_, fun h0 => s2 (s1 h0), fun h0 => a2 (a1 h0)⟩
      rcases t2 e he with h2 | h2
      · exact t1 e h2
      · exact Or.inr h2

theorem scan_loop_reach (env : Env) (prog : String) (pre : List Scanned) (st : State)
    (hpre : ∀ p ∈ pre, ¬ is_decisive env p) : ∃ st1, scan_loop env prog st pre = .ok st1 := by
  induction pre generalizing st with
  | nil => exact ⟨st, rfl⟩
  | cons x xs ih =>
    obtain ⟨st2, h2⟩ := switch_opt_ok_of_not_decisive env prog st x
      (hpre x (List.mem_cons_self x xs))
    obtain ⟨st1, h1⟩ := ih st2 (fun p hp => hpre p (List.mem_cons_of_mem x hp))
    exact ⟨st1, by simp only [scan_loop, h2, h1]⟩

theorem scan_loop_error_split (env : Env) (prog : String) (scan : List Scanned) (st : State)
    (out : Outcome) (h : scan_loop env prog st scan = .error out) :
    ∃ st1 s, (∀ e ∈ st1.trace, e ∈ st.trace ∨ is_log_event e) ∧ s ∈ scan ∧
      switch_opt env prog st1 s = .error out := by
  induction scan generalizing st with
  | nil => simp only [scan_loop] at h; cases h
  | cons x xs ih =>
    simp only [scan_loop] at h
    cases hx : switch_opt env prog st x with
    | error o =>
      rw [hx] at h
      simp only [Except.error.injEq] at h
      subst h
      exact ⟨st, x, fun e he => Or.inl he, List.mem_cons_self x xs, hx⟩
    | ok st2 =>
      rw [hx] at h
      obtain ⟨st1, s, ht, hmem, hs⟩ := ih st2 h
      refine ⟨st1, s, fun e he => ?_, List.mem_cons_of_mem x hmem, hs⟩
      rcases ht e he with h2 | h2
      · exact (switch_opt_ok_inv env prog st st2 x hx).1 e h2
      · exact Or.inr h2

theorem init_state_trace (env : Env) : (init_state env).trace = [] := rfl

/-- Reaching a decisive flag: everything before it is scanned without ending the process,
and the outcome of `main` is the outcome of the `switch` at that flag. -/
theorem main_at_decisive (b : Build) (env : Env) (prog : String) (pre post : List Scanned)
    (s : Scanned) (hpre : ∀ p ∈ pre, ¬ is_decisive env p) (hs : is_decisive env s) :
    ∃ st1, (∀ e ∈ st1.trace, is_log_event e) ∧
      switch_opt env prog st1 s = .error (main b env prog (pre ++ s :: post)) := by
  obtain ⟨st1, h1⟩ := scan_loop_reach env prog pre (init_state env) hpre
  have hlog : ∀ e ∈ st1.trace, is_log_event e := by
    intro e he
    rcases (scan_loop_ok_inv env prog pre _ st1 h1).1 e he with h | h
    · simp [init_state_trace] at h
    · exact h
  refine ⟨st1, hlog, ?_⟩
  have herr : ∃ out, switch_opt env prog st1 s = .error out := by
    rcases hs with ht | hf
    · exact ⟨_, switch_opt_terminal env prog st1 s ht⟩
    · obtain ⟨msg, hm⟩ := switch_opt_failing env prog st1 s hf
      exact ⟨_, hm⟩
  obtain ⟨out, hout⟩ := herr
  simp only [main, scan_loop_append, h1, scan_loop, hout]

theorem assembled_eq_some (env : Env) (prog : String) (scan : List Scanned) (st : State) :
    assembled env prog scan = some st ↔ scan_loop env prog (init_state env) scan = .ok st := by
  unfold assembled
  cases h : scan_loop env prog (init_state env) scan <;> simp

theorem main_of_assembled (b : Build) (env : Env) (prog : String) (scan : List Scanned)
    (st : State) (h : assembled env prog scan = some st) :
    main b env prog scan = after_loop b env st := by
  rw [assembled_eq_some] at h
  simp only [main, h]

/-- What holds of every successfully assembled state: the loop has only logged, the scale
is non-negative and, when the default colour has one, so is the alpha. -/
theorem assembled_inv (env : Env) (prog : String) (scan : List Scanned) (st : State)
    (h : assembled env prog scan = some st) :
    (∀ e ∈ st.trace, is_log_event e) ∧ 0 ≤ st.options.scale ∧
      (0 ≤ env.rgba_color_default.a → 0 ≤ st.options.text_color.a) := by
  rw [assembled_eq_some] at h
  obtain ⟨ht, hs, ha⟩ := scan_loop_ok_inv env prog scan _ st h
  refine ⟨fun e he => ?_, hs (by simp [init_state, i18n_set_info, default_options]),
    fun h0 => ha (by simpa [init_state, i18n_set_info, default_options] using h0)⟩
  rcases ht e he with h1 | h1
  · simp [init_state_trace] at h1
  · exact h1

/-- When the option loop ends the process, no backend was started and nothing was forked. -/
theorem main_of_not_assembled (b : Build) (env : Env) (prog : String) (scan : List Scanned)
    (h : assembled env prog scan = none) :
    backend_calls (main b env prog scan).trace = [] ∧ Event.fork ∉ (main b env prog scan).trace ∧
      Event.setsid ∉ (main b env prog scan).trace := by
  unfold assembled at h
  cases hl : scan_loop env prog (init_state env) scan with
  | ok st => rw [hl] at h; cases h
  | error out =>
    obtain ⟨st1, s, hlog, -, hs⟩ := scan_loop_error_split env prog scan _ out hl
    have hlog1 : ∀ e ∈ st1.trace, is_log_event e := by
      intro e he
      rcases hlog e he with h1 | h1
      · simp [init_state_trace] at h1
      · exact h1
    have hmain : main b env prog scan = out := by simp only [main, hl]
    rw [hmain]
    rcases switch_opt_error_decisive env prog st1 s out hs with ht | hf
    · rw [switch_opt_terminal env prog st1 s ht] at hs
      simp only [Except.error.injEq] at hs
      subst hs
      refine ⟨?_, ?_, ?_⟩
      · rw [backend_calls_append, backend_calls_of_log _ hlog1]
        split_ifs <;> rfl
      · simp only [List.mem_append, List.mem_singleton, not_or]
        exact ⟨not_mem_of_log _ hlog1 _ (by simp [is_log_event]), by split_ifs <;> simp⟩
      · simp only [List.mem_append, List.mem_singleton, not_or]
        exact ⟨not_mem_of_log _ hlog1 _ (by simp [is_log_event]), by split_ifs <;> simp⟩
    · obtain ⟨msg, hm⟩ := switch_opt_failing env prog st1 s hf
      rw [hm] at hs
      simp only [Except.error.injEq] at hs
      subst hs
      refine ⟨?_, ?_, ?_⟩
      · rw [backend_calls_append, backend_calls_of_log _ hlog1]
        rfl
      · simp only [List.mem_append, List.mem_singleton, not_or]
        exact ⟨not_mem_of_log _ hlog1 _ (by simp [is_log_event]), by simp⟩
      · simp only [List.mem_append, List.mem_singleton, not_or]
        exact ⟨not_mem_of_log _ hlog1 _ (by simp [is_log_event]), by simp⟩

/-! ## Lemmas on the backend attempts -/

theorem strncmp_wayland : strncmp "wayland".toList "x11".toList 3 ≠ 0 := by decide

theorem strncmp_x11 : strncmp "x11".toList "x11".toList 3 = 0 := by decide

theorem try_backend_both_wayland (ret : Int) :
    try_backend .both "wayland" ret = if ret = 0 then some ret else none := by
  have h := strncmp_wayland
  unfold try_backend
  simp only [h, or_false]

theorem try_backend_both_x11 (ret : Int) : try_backend .both "x11" ret = some ret := by
  unfold try_backend
  simp only [strncmp_x11, or_true, if_true]

theorem wayland_section_both (env : Env) (o : draw_options) (tr : List Event) :
    wayland_section .both env o tr =
      if env.wayland_backend_start o = 0 then
        ⟨0, tr ++ [Event.wayland_backend_start o]⟩
      else
        ⟨env.x11_backend_start o,
          tr ++ [Event.wayland_backend_start o, Event.x11_backend_start o]⟩ := by
  by_cases h : env.wayland_backend_start o = 0
  · simp [wayland_section, try_backend_both_wayland, Build.has_wayland, h]
  · simp [wayland_section, x11_section, try_backend_both_wayland, try_backend_both_x11,
      Build.has_wayland, Build.has_x11, h]

theorem wayland_section_wayland_only (env : Env) (o : draw_options) (tr : List Event) :
    wayland_section .wayland_only env o tr =
      ⟨env.wayland_backend_start o, tr ++ [Event.wayland_backend_start o]⟩ := by
  simp [wayland_section, try_backend, Build.has_wayland]

theorem wayland_section_x11_only (env : Env) (o : draw_options) (tr : List Event) :
    wayland_section .x11_only env o tr =
      ⟨env.x11_backend_start o, tr ++ [Event.x11_backend_start o]⟩ := by
  simp [wayland_section, x11_section, try_backend, Build.has_wayland, Build.has_x11]

theorem backend_calls_lifecycle (env : Env) (st : State) :
    backend_calls (lifecycle_events env st) = [] := by
  unfold lifecycle_events
  split_ifs <;> rfl

/-- Unless the process is the parent of a successful fork, `main` goes on to the backend
attempts with the assembled options. -/
theorem after_loop_continues (b : Build) (env : Env) (st : State)
    (h : st.daemonize = true → env.fork ≤ 0) :
    after_loop b env st =
      wayland_section b env st.options (st.trace ++ lifecycle_events env st) := by
  unfold after_loop lifecycle_events
  by_cases hd : st.daemonize = true
  · have hle := h hd
    by_cases h0 : env.fork = 0
    · simp [hd, h0]
    · have hlt : ¬ 0 < env.fork := not_lt.mpr hle
      simp [hd, h0, hlt]
  · simp [hd]

theorem after_loop_parent (b : Build) (env : Env) (st : State)
    (hd : st.daemonize = true) (h : 0 < env.fork) :
    after_loop b env st =
      ⟨0, st.trace ++ [Event.debug "Verbose mode activated\n",
        Event.debug "Forking to background\n", Event.fork]⟩ := by
  simp [after_loop, hd, h]

theorem backend_calls_continue (env : Env) (prog : String) (scan : List Scanned) (st : State)
    (h : assembled env prog scan = some st) (tail : List Event) :
    backend_calls (st.trace ++ lifecycle_events env st ++ tail) = backend_calls tail := by
  rw [backend_calls_append, backend_calls_append,
    backend_calls_of_log _ (assembled_inv env prog scan st h).1, backend_calls_lifecycle]
  rfl

theorem wayland_section_calls (b : Build) (env : Env) (o : draw_options) (tr : List Event) :
    ∃ rest, backend_calls (wayland_section b env o tr).trace =
        backend_calls tr ++ (first_backend b, o) :: rest ∧ ∀ p ∈ rest, p.2 = o := by
  cases b with
  | both =>
    rw [wayland_section_both]
    split_ifs
    · exact ⟨[], by rw [backend_calls_append]; rfl, by simp⟩
    · exact ⟨[(Backend.x11, o)], by rw [backend_calls_append]; rfl, by simp⟩
  | wayland_only =>
    rw [wayland_section_wayland_only]
    exact ⟨[], by rw [backend_calls_append]; rfl, by simp⟩
  | x11_only =>
    rw [wayland_section_x11_only]
    exact ⟨[], by rw [backend_calls_append]; rfl, by simp⟩

/-- Every backend invocation after the option loop receives the assembled options. -/
theorem after_loop_calls_options (b : Build) (env : Env) (st : State)
    (hlog : ∀ e ∈ st.trace, is_log_event e) :
    ∀ p ∈ backend_calls (after_loop b env st).trace, p.2 = st.options := by
  by_cases hproc : st.daemonize = true → env.fork ≤ 0
  · rw [after_loop_continues b env st hproc]
    obtain ⟨rest, hcalls, hrest⟩ := wayland_section_calls b env st.options
      (st.trace ++ lifecycle_events env st)
    rw [hcalls, backend_calls_append, backend_calls_of_log _ hlog, backend_calls_lifecycle]
    intro p hp
    simp only [List.nil_append, List.mem_cons] at hp
    rcases hp with hp | hp
    · rw [hp]
    · exact hrest p hp
  · have hd : st.daemonize = true := by
      by_contra hd
      exact hproc (fun h => absurd h hd)
    have hpos : 0 < env.fork := by
      by_contra hpos
      exact hproc (fun _ => not_lt.mp hpos)
    rw [after_loop_parent b env st hd hpos]
    have hcalls : backend_calls (st.trace ++ [Event.debug "Verbose mode activated\n",
        Event.debug "Forking to background\n", Event.fork]) = [] := by
      rw [backend_calls_append, backend_calls_of_log _ hlog]
      rfl
    intro p hp
    rw [hcalls] at hp
    cases hp

/-- In a process that reaches the backends, the first backend of the build is invoked with
the assembled options. -/
theorem after_loop_calls_first (b : Build) (env : Env) (st : State)
    (hlog : ∀ e ∈ st.trace, is_log_event e) (hproc : st.daemonize = true → env.fork ≤ 0) :
    (backend_calls (after_loop b env st).trace).head? = some (first_backend b, st.options) := by
  rw [after_loop_continues b env st hproc]
  obtain ⟨rest, hcalls, -⟩ := wayland_section_calls b env st.options
    (st.trace ++ lifecycle_events env st)
  rw [hcalls, backend_calls_append, backend_calls_of_log _ hlog, backend_calls_lifecycle]
  rfl

theorem main_at_terminal (b : Build) (env : Env) (prog : String) (pre post : List Scanned)
    (s : Scanned) (hpre : ∀ p ∈ pre, ¬ is_decisive env p) (hs : is_terminal s) :
    ∃ tr, (∀ e ∈ tr, is_log_event e) ∧
      main b env prog (pre ++ s :: post) =
        ⟨0, tr ++ [if s.opt = 'h' then Event.print_help prog else Event.i18n_list_presets]⟩ := by
  obtain ⟨st1, hlog, hsw⟩ := main_at_decisive b env prog pre post s hpre (Or.inl hs)
  rw [switch_opt_terminal env prog st1 s hs] at hsw
  simp only [Except.error.injEq] at hsw
  exact ⟨st1.trace, hlog, hsw.symm⟩

theorem main_at_failing (b : Build) (env : Env) (prog : String) (pre post : List Scanned)
    (s : Scanned) (hpre : ∀ p ∈ pre, ¬ is_decisive env p) (hs : is_failing env s) :
    ∃ tr msg, (∀ e ∈ tr, is_log_event e) ∧
      main b env prog (pre ++ s :: post) = ⟨1, tr ++ [Event.stderr msg]⟩ := by
  obtain ⟨st1, hlog, hsw⟩ := main_at_decisive b env prog pre post s hpre (Or.inr hs)
  obtain ⟨msg, hm⟩ := switch_opt_failing env prog st1 s hs
  rw [hm] at hsw
  simp only [Except.error.injEq] at hsw
  exact ⟨st1.trace, msg, hlog, hsw.symm⟩

theorem getLast?_snoc (tr : List Event) (e : Event) : (tr ++ [e]).getLast? = some e := by
  simp

theorem quiet_of_log_snoc (tr : List Event) (e : Event) (hlog : ∀ x ∈ tr, is_log_event x)
    (he : backend_calls [e] = []) (hf : e ≠ Event.fork) :
    backend_calls (tr ++ [e]) = [] ∧ Event.fork ∉ tr ++ [e] := by
  refine ⟨by rw [backend_calls_append, backend_calls_of_log _ hlog, he]; rfl, ?_⟩
  simp only [List.mem_append, List.mem_singleton, not_or]
  exact ⟨not_mem_of_log _ hlog _ (by simp [is_log_event]), fun h => hf h.symm⟩

/-! ## Backend orchestration (C1, C2, C3) -/

/-- C1, the claim as stated fails: with both backends compiled in, `-d` passes configuration
assembly, the Wayland double would return 1 and the X11 double 5, yet in the parent of the
fork the exit code is 0 and neither backend is invoked. -/
theorem both_build_parent_starts_no_backend :
    (assembled (stub_env 4242 1 5) "prog" [⟨'d', ""⟩]).isSome = true ∧
      (∀ o, (stub_env 4242 1 5).wayland_backend_start o = 1) ∧
      (∀ o, (stub_env 4242 1 5).x11_backend_start o = 5) ∧
      (main .both (stub_env 4242 1 5) "prog" [⟨'d', ""⟩]).code = 0 ∧
      backend_calls (main .both (stub_env 4242 1 5) "prog" [⟨'d', ""⟩]).trace = [] :=
  ⟨by decide, fun _ => rfl, fun _ => rfl, by decide, by decide⟩

/-- C1, amended: in a build with both backends, for every argument vector that passes
configuration assembly, in a process that is not the parent of a successful `-d` fork
(`-d` absent, or `fork` returned a value `≤ 0`), for every non-zero `w` returned by
`wayland_backend_start` and every `x` returned by `x11_backend_start`, `main` invokes the
Wayland backend once, then the X11 backend once, both with the assembled options, and the
exit code is `x`. -/
theorem both_build_falls_back_to_x11 (env : Env) (prog : String) (scan : List Scanned)
    (st : State) (w x : Int)
    (hst : assembled env prog scan = some st)
    (hproc : st.daemonize = true → env.fork ≤ 0)
    (hw : env.wayland_backend_start st.options = w) (hw0 : w ≠ 0)
    (hx : env.x11_backend_start st.options = x) :
    backend_calls (main .both env prog scan).trace =
        [(Backend.wayland, st.options), (Backend.x11, st.options)] ∧
      (main .both env prog scan).code = x := by
  have hne : ¬ env.wayland_backend_start st.options = 0 := by rw [hw]; exact hw0
  rw [main_of_assembled _ env prog scan st hst, after_loop_continues _ env st hproc,
    wayland_section_both, if_neg hne]
  refine ⟨?_, hx⟩
  show backend_calls (st.trace ++ lifecycle_events env st ++ _) = _
  rw [backend_calls_continue env prog scan st hst]
  rfl

/-- Witness for C1 (amended): the child of `-d` with a Wayland double returning 1 and an
X11 double returning 5. -/
theorem both_build_falls_back_to_x11_witness :
    ∃ st, assembled (stub_env 0 1 5) "prog" [⟨'d', ""⟩] = some st ∧
      backend_calls (main .both (stub_env 0 1 5) "prog" [⟨'d', ""⟩]).trace =
        [(Backend.wayland, st.options), (Backend.x11, st.options)] ∧
      (main .both (stub_env 0 1 5) "prog" [⟨'d', ""⟩]).code = 5 :=
  ⟨_, rfl, both_build_falls_back_to_x11 (stub_env 0 1 5) "prog" [⟨'d', ""⟩] _ 1 5 rfl
    (fun _ => by decide) rfl (by decide) rfl⟩

/-- C2, the claim as stated fails: with both backends compiled in, `-d` passes
configuration assembly, yet in the parent of the fork no backend is invoked, so no
backend's return code becomes the exit code. With a Wayland double returning 0 there are
zero invocations; with doubles returning 3 and 5 the exit code 0 is neither. -/
theorem both_build_parent_exit_is_no_backend_code :
    (assembled (stub_env 4242 0 5) "prog" [⟨'d', ""⟩]).isSome = true ∧
      (∀ o, (stub_env 4242 0 5).wayland_backend_start o = 0) ∧
      backend_calls (main .both (stub_env 4242 0 5) "prog" [⟨'d', ""⟩]).trace = [] ∧
      (assembled (stub_env 4242 3 5) "prog" [⟨'d', ""⟩]).isSome = true ∧
      backend_calls (main .both (stub_env 4242 3 5) "prog" [⟨'d', ""⟩]).trace = [] ∧
      (main .both (stub_env 4242 3 5) "prog" [⟨'d', ""⟩]).code = 0 ∧
      (∀ o, (main .both (stub_env 4242 3 5) "prog" [⟨'d', ""⟩]).code ≠
        (stub_env 4242 3 5).wayland_backend_start o) ∧
      (∀ o, (main .both (stub_env 4242 3 5) "prog" [⟨'d', ""⟩]).code ≠
        (stub_env 4242 3 5).x11_backend_start o) :=
  ⟨by decide, fun _ => rfl, by decide, by decide, by decide, by decide,
    fun _ => (by decide :
      (main .both (stub_env 4242 3 5) "prog" [⟨'d', ""⟩]).code ≠ (3 : Int)),
    fun _ => (by decide :
      (main .both (stub_env 4242 3 5) "prog" [⟨'d', ""⟩]).code ≠ (5 : Int))⟩

/-- C2, amended: in a build with both backends, for every argument vector that passes
configuration assembly, if `wayland_backend_start` returns 0 then the exit code is 0, the
X11 backend is never invoked, and in a process that reaches the backends the Wayland
backend is the only one invoked. In every run that passes configuration assembly and is
not the parent of a successful `-d` fork (`-d` absent, or `fork` returned a value `≤ 0`),
exactly one backend is the one whose return code becomes the exit code: Wayland, invoked
alone, when it returns 0, and otherwise X11, invoked after Wayland. Over all runs, the
backend invocations are none, Wayland alone, or Wayland followed by X11, so Wayland is
always tried before X11. -/
theorem both_build_wayland_success_is_final (env : Env) (prog : String)
    (scan : List Scanned) :
    (∀ st, assembled env prog scan = some st → env.wayland_backend_start st.options = 0 →
      (main .both env prog scan).code = 0 ∧
        x11_calls (main .both env prog scan).trace = [] ∧
        ((st.daemonize = true → env.fork ≤ 0) →
          backend_calls (main .both env prog scan).trace = [(Backend.wayland, st.options)])) ∧
      (∀ st, assembled env prog scan = some st → (st.daemonize = true → env.fork ≤ 0) →
        (backend_calls (main .both env prog scan).trace = [(Backend.wayland, st.options)] ∧
          env.wayland_backend_start st.options = 0 ∧
          (main .both env prog scan).code = env.wayland_backend_start st.options) ∨
        (backend_calls (main .both env prog scan).trace =
            [(Backend.wayland, st.options), (Backend.x11, st.options)] ∧
          env.wayland_backend_start st.options ≠ 0 ∧
          (main .both env prog scan).code = env.x11_backend_start st.options)) ∧
      (backend_calls (main .both env prog scan).trace = [] ∨
        (∃ o, backend_calls (main .both env prog scan).trace = [(Backend.wayland, o)] ∧
          (main .both env prog scan).code = env.wayland_backend_start o) ∨
        (∃ o, backend_calls (main .both env prog scan).trace =
            [(Backend.wayland, o), (Backend.x11, o)] ∧
          env.wayland_backend_start o ≠ 0 ∧
          (main .both env prog scan).code = env.x11_backend_start o)) := by
  have hmid : ∀ st, assembled env prog scan = some st →
      (st.daemonize = true → env.fork ≤ 0) →
      (backend_calls (main .both env prog scan).trace = [(Backend.wayland, st.options)] ∧
        env.wayland_backend_start st.options = 0 ∧
        (main .both env prog scan).code = env.wayland_backend_start st.options) ∨
      (backend_calls (main .both env prog scan).trace =
          [(Backend.wayland, st.options), (Backend.x11, st.options)] ∧
        env.wayland_backend_start st.options ≠ 0 ∧
        (main .both env prog scan).code = env.x11_backend_start st.options) := by
    intro st hst hproc
    rw [main_of_assembled _ env prog scan st hst, after_loop_continues _ env st hproc,
      wayland_section_both]
    by_cases hw : env.wayland_backend_start st.options = 0
    · rw [if_pos hw]
      refine Or.inl ⟨?_, hw, hw.symm⟩
      show backend_calls (st.trace ++ lifecycle_events env st ++ _) = _
      rw [backend_calls_continue env prog scan st hst]
      rfl
    · rw [if_neg hw]
      refine Or.inr ⟨?_, hw, rfl⟩
      show backend_calls (st.trace ++ lifecycle_events env st ++ _) = _
      rw [backend_calls_continue env prog scan st hst]
      rfl
  have hrest : (∀ st, assembled env prog scan = some st →
      env.wayland_backend_start st.options = 0 →
      (main .both env prog scan).code = 0 ∧
        x11_calls (main .both env prog scan).trace = [] ∧
        ((st.daemonize = true → env.fork ≤ 0) →
          backend_calls (main .both env prog scan).trace = [(Backend.wayland, st.options)])) ∧
      (backend_calls (main .both env prog scan).trace = [] ∨
        (∃ o, backend_calls (main .both env prog scan).trace = [(Backend.wayland, o)] ∧
          (main .both env prog scan).code = env.wayland_backend_start o) ∨
        (∃ o, backend_calls (main .both env prog scan).trace =
            [(Backend.wayland, o), (Backend.x11, o)] ∧
          env.wayland_backend_start o ≠ 0 ∧
          (main .both env prog scan).code = env.x11_backend_start o)) := by
    clear hmid
    cases hst : assembled env prog scan with
    | none =>
      exact ⟨fun st h => (by cases h), Or.inl (main_of_not_assembled _ env prog scan hst).1⟩
    | some st =>
      have hlog := (assembled_inv env prog scan st hst).1
      rw [main_of_assembled _ env prog scan st hst]
      by_cases hproc : st.daemonize = true → env.fork ≤ 0
      · rw [after_loop_continues _ env st hproc, wayland_section_both]
        by_cases hw : env.wayland_backend_start st.options = 0
        · rw [if_pos hw]
          have hcalls : backend_calls (st.trace ++ lifecycle_events env st ++
              [Event.wayland_backend_start st.options]) = [(Backend.wayland, st.options)] := by
            rw [backend_calls_continue env prog scan st hst]
            rfl
          refine ⟨fun st1 h1 _ => ?_, Or.inr (Or.inl ⟨st.options, hcalls, hw.symm⟩)⟩
          simp only [Option.some.injEq] at h1
          subst h1
          refine ⟨rfl, ?_, fun _ => hcalls⟩
          show x11_calls (st.trace ++ lifecycle_events env st ++ _) = []
          unfold x11_calls
          rw [hcalls]
          rfl
        · rw [if_neg hw]
          have hcalls : backend_calls (st.trace ++ lifecycle_events env st ++
              [Event.wayland_backend_start st.options, Event.x11_backend_start st.options]) =
              [(Backend.wayland, st.options), (Backend.x11, st.options)] := by
            rw [backend_calls_continue env prog scan st hst]
            rfl
          refine ⟨fun st1 h1 h0 => ?_, Or.inr (Or.inr ⟨st.options, hcalls, hw, rfl⟩)⟩
          simp only [Option.some.injEq] at h1
          subst h1
          exact absurd h0 hw
      · have hd : st.daemonize = true := by
          by_contra hd
          exact hproc (fun h => absurd h hd)
        have hpos : 0 < env.fork := by
          by_contra hpos
          exact hproc (fun _ => not_lt.mp hpos)
        rw [after_loop_parent _ env st hd hpos]
        have hcalls : backend_calls (st.trace ++ [Event.debug "Verbose mode activated\n",
            Event.debug "Forking to background\n", Event.fork]) = [] := by
          rw [backend_calls_append, backend_calls_of_log _ hlog]
          rfl
        refine ⟨fun st1 h1 _ => ?_, Or.inl hcalls⟩
        simp only [Option.some.injEq] at h1
        subst h1
        refine ⟨rfl, ?_, fun h => absurd h hproc⟩
        show x11_calls (st.trace ++ _) = []
        unfold x11_calls
        rw [hcalls]
        rfl
  exact ⟨hrest.1, hmid, hrest.2⟩

/-- Witness for C2 (amended): no flags, with a Wayland double returning 0 the exit code is
0 and X11 is not invoked; with doubles returning 1 and 5 the X11 return code 5 is the
exit code. -/
theorem both_build_wayland_success_is_final_witness :
    ((main .both (stub_env 0 0 5) "prog" []).code = 0 ∧
      x11_calls (main .both (stub_env 0 0 5) "prog" []).trace = []) ∧
    ∃ st, assembled (stub_env 0 1 5) "prog" [] = some st ∧
      ((backend_calls (main .both (stub_env 0 1 5) "prog" []).trace =
          [(Backend.wayland, st.options)] ∧
        (stub_env 0 1 5).wayland_backend_start st.options = 0 ∧
        (main .both (stub_env 0 1 5) "prog" []).code =
          (stub_env 0 1 5).wayland_backend_start st.options) ∨
      (backend_calls (main .both (stub_env 0 1 5) "prog" []).trace =
          [(Backend.wayland, st.options), (Backend.x11, st.options)] ∧
        (stub_env 0 1 5).wayland_backend_start st.options ≠ 0 ∧
        (main .both (stub_env 0 1 5) "prog" []).code =
          (stub_env 0 1 5).x11_backend_start st.options)) :=
  have h := (both_build_wayland_success_is_final (stub_env 0 0 5) "prog" []).1 _ rfl rfl
  ⟨⟨h.1, h.2.1⟩, _, rfl,
    (both_build_wayland_success_is_final (stub_env 0 1 5) "prog" []).2.1 _ rfl
      (fun hd => by cases hd)⟩

/-- C3, the claim as stated fails: with only the Wayland backend compiled in, `-d` passes
configuration assembly and the Wayland double would return 3, yet in the parent of the
fork the exit code is 0 and the Wayland backend is not invoked. -/
theorem wayland_only_parent_starts_no_backend :
    (assembled (stub_env 4242 3 0) "prog" [⟨'d', ""⟩]).isSome = true ∧
      (∀ o, (stub_env 4242 3 0).wayland_backend_start o = 3) ∧
      (main .wayland_only (stub_env 4242 3 0) "prog" [⟨'d', ""⟩]).code = 0 ∧
      wayland_calls (main .wayland_only (stub_env 4242 3 0) "prog" [⟨'d', ""⟩]).trace = [] :=
  ⟨by decide, fun _ => rfl, by decide, by decide⟩

/-- C3, amended: in a build with only the Wayland backend (`NO_X11`), for every argument
vector that passes configuration assembly, in a process that is not the parent of a
successful `-d` fork, for every `w` (zero or not) returned by `wayland_backend_start`, the
exit code is `w`, the Wayland backend is invoked exactly once, with the assembled options,
and the X11 backend is not invoked. -/
theorem wayland_only_code_is_final (env : Env) (prog : String) (scan : List Scanned)
    (st : State) (w : Int)
    (hst : assembled env prog scan = some st)
    (hproc : st.daemonize = true → env.fork ≤ 0)
    (hw : env.wayland_backend_start st.options = w) :
    (main .wayland_only env prog scan).code = w ∧
      backend_calls (main .wayland_only env prog scan).trace =
        [(Backend.wayland, st.options)] ∧
      wayland_calls (main .wayland_only env prog scan).trace = [st.options] ∧
      x11_calls (main .wayland_only env prog scan).trace = [] := by
  rw [main_of_assembled _ env prog scan st hst, after_loop_continues _ env st hproc,
    wayland_section_wayland_only]
  have hcalls : backend_calls (st.trace ++ lifecycle_events env st ++
      [Event.wayland_backend_start st.options]) = [(Backend.wayland, st.options)] := by
    rw [backend_calls_continue env prog scan st hst]
    rfl
  refine ⟨hw, hcalls, ?_, ?_⟩
  · show wayland_calls (st.trace ++ lifecycle_events env st ++ _) = _
    unfold wayland_calls
    rw [hcalls]
    rfl
  · show x11_calls (st.trace ++ lifecycle_events env st ++ _) = _
    unfold x11_calls
    rw [hcalls]
    rfl

/-- Witness for C3 (amended): no flags and a Wayland double returning 3. -/
theorem wayland_only_code_is_final_witness :
    ∃ st, assembled (stub_env 0 3 0) "prog" [] = some st ∧
      (main .wayland_only (stub_env 0 3 0) "prog" []).code = 3 ∧
      wayland_calls (main .wayland_only (stub_env 0 3 0) "prog" []).trace = [st.options] ∧
      x11_calls (main .wayland_only (stub_env 0 3 0) "prog" []).trace = [] :=
  have h := wayland_only_code_is_final (stub_env 0 3 0) "prog" [] _ 3 rfl
    (fun hd => by cases hd) rfl
  ⟨_, rfl, h.1, h.2.2.1, h.2.2.2⟩

/-! ## Configuration assembly (C4, C5, C7, C10) -/

/-- C4: when the default colour has a non-negative alpha, every configuration that `main`
hands to a backend entry point has `scale ≥ 0` and `text_color.a ≥ 0`, whatever the flags;
and a `-s` with a negative parsed value, or a `-c` with the negative-alpha sentinel, that
the scanner reaches makes `main` end with code 1 and no backend invocation, whatever
flags follow it. -/
theorem backends_only_see_valid_configuration (b : Build) (env : Env) (prog : String)
    (hdef : 0 ≤ env.rgba_color_default.a) :
    (∀ scan, ∀ p ∈ backend_calls (main b env prog scan).trace,
        0 ≤ p.2.scale ∧ 0 ≤ p.2.text_color.a) ∧
      (∀ pre s post, (∀ p ∈ pre, ¬ is_decisive env p) → is_failing env s →
        (main b env prog (pre ++ s :: post)).code = 1 ∧
          backend_calls (main b env prog (pre ++ s :: post)).trace = []) := by
  constructor
  · intro scan p hp
    cases hst : assembled env prog scan with
    | none =>
      rw [(main_of_not_assembled b env prog scan hst).1] at hp
      cases hp
    | some st =>
      obtain ⟨hlog, hscale, halpha⟩ := assembled_inv env prog scan st hst
      rw [main_of_assembled b env prog scan st hst] at hp
      rw [after_loop_calls_options b env st hlog p hp]
      exact ⟨hscale, halpha hdef⟩
  · intro pre s post hpre hs
    obtain ⟨tr, msg, hlog, hmain⟩ := main_at_failing b env prog pre post s hpre hs
    rw [hmain]
    exact ⟨rfl, (quiet_of_log_snoc tr (Event.stderr msg) hlog rfl (by simp)).1⟩

/-- Witness for C4: `-b -c invalid -h` with the colour parser double ends with code 1 and
no backend invocation. -/
theorem backends_only_see_valid_configuration_witness :
    (main .both (stub_env 0 0 0) "prog" [⟨'b', ""⟩, ⟨'c', "invalid"⟩, ⟨'h', ""⟩]).code = 1 ∧
      backend_calls
        (main .both (stub_env 0 0 0) "prog" [⟨'b', ""⟩, ⟨'c', "invalid"⟩, ⟨'h', ""⟩]).trace
          = [] :=
  (backends_only_see_valid_configuration .both (stub_env 0 0 0) "prog" (by decide)).2
    [⟨'b', ""⟩] ⟨'c', "invalid"⟩ [⟨'h', ""⟩] (by decide) (by decide)

/-- C5, the claim as stated fails: `atof` turns `abc` into 0, which is not negative, so
`-s abc` passes configuration assembly with scale 0 and both backend doubles are invoked;
the exit code is the X11 double's 9, not 1. -/
theorem scale_abc_reaches_backends :
    (stub_env 0 7 9).atof "abc" = 0 ∧
      (main .both (stub_env 0 7 9) "prog" [⟨'s', "abc"⟩]).code = 9 ∧
      (backend_calls (main .both (stub_env 0 7 9) "prog" [⟨'s', "abc"⟩]).trace).map
          (fun p => (p.1, p.2.scale)) = [(Backend.wayland, 0), (Backend.x11, 0)] :=
  ⟨by decide, by decide, by decide⟩

theorem assembled_scale (env : Env) (prog : String) (a : String) (h : 0 ≤ env.atof a) :
    assembled env prog [⟨'s', a⟩] =
      some { init_state env with
        options := { (init_state env).options with scale := env.atof a } } := by
  simp [assembled, scan_loop, switch_opt, not_lt.mpr h]

theorem scale_reaches_first_backend (b : Build) (env : Env) (prog : String) (a : String)
    (h : 0 ≤ env.atof a) :
    ∃ st, assembled env prog [⟨'s', a⟩] = some st ∧ st.options.scale = env.atof a ∧
      (backend_calls (main b env prog [⟨'s', a⟩]).trace).head? =
        some (first_backend b, st.options) ∧
      ∀ p ∈ backend_calls (main b env prog [⟨'s', a⟩]).trace, p.2.scale = env.atof a := by
  have hst := assembled_scale env prog a h
  have hlog := (assembled_inv env prog _ _ hst).1
  refine ⟨_, hst, rfl, ?_, ?_⟩
  · rw [main_of_assembled b env prog _ _ hst]
    exact after_loop_calls_first b env _ hlog (fun hd => by cases hd)
  · intro p hp
    rw [main_of_assembled b env prog _ _ hst] at hp
    rw [after_loop_calls_options b env _ hlog p hp]

/-- C5, amended: for `-s -1` (parsed as -1) the process exits with code 1 and no backend
entry point is called; for `-s abc` (parsed as 0, which is not negative) configuration
assembly succeeds with `scale == 0` and that configuration is passed to the first backend
of the build; for `-s 2.5` configuration assembly succeeds with `scale == 2.5` in the
configuration passed to the backend. -/
theorem scale_flag_examples (b : Build) (env : Env) (prog : String) :
    (env.atof "-1" = -1 →
      (main b env prog [⟨'s', "-1"⟩]).code = 1 ∧
        backend_calls (main b env prog [⟨'s', "-1"⟩]).trace = []) ∧
    (env.atof "abc" = 0 →
      ∃ st, assembled env prog [⟨'s', "abc"⟩] = some st ∧ st.options.scale = 0 ∧
        (backend_calls (main b env prog [⟨'s', "abc"⟩]).trace).head? =
          some (first_backend b, st.options) ∧
        ∀ p ∈ backend_calls (main b env prog [⟨'s', "abc"⟩]).trace, p.2.scale = 0) ∧
    (env.atof "2.5" = 5 / 2 →
      ∃ st, assembled env prog [⟨'s', "2.5"⟩] = some st ∧ st.options.scale = 5 / 2 ∧
        (backend_calls (main b env prog [⟨'s', "2.5"⟩]).trace).head? =
          some (first_backend b, st.options) ∧
        ∀ p ∈ backend_calls (main b env prog [⟨'s', "2.5"⟩]).trace, p.2.scale = 5 / 2) := by
  refine ⟨fun h => ?_, fun h => ?_, fun h => ?_⟩
  · have hf : is_failing env ⟨'s', "-1"⟩ := Or.inl ⟨rfl, by rw [h]; norm_num⟩
    obtain ⟨tr, msg, hlog, hmain⟩ :=
      main_at_failing b env prog [] [] ⟨'s', "-1"⟩ (by simp) hf
    rw [List.nil_append] at hmain
    rw [hmain]
    exact ⟨rfl, (quiet_of_log_snoc tr (Event.stderr msg) hlog rfl (by simp)).1⟩
  · have h0 : 0 ≤ env.atof "abc" := by rw [h]
    obtain ⟨st, h1, h2, h3, h4⟩ := scale_reaches_first_backend b env prog "abc" h0
    rw [h] at h2 h4
    exact ⟨st, h1, h2, h3, h4⟩
  · have h0 : 0 ≤ env.atof "2.5" := by rw [h]; norm_num
    obtain ⟨st, h1, h2, h3, h4⟩ := scale_reaches_first_backend b env prog "2.5" h0
    rw [h] at h2 h4
    exact ⟨st, h1, h2, h3, h4⟩

/-- Witness for C5 (amended): the three argument vectors with the `atof` double. -/
theorem scale_flag_examples_witness :
    (main .both (stub_env 0 7 9) "prog" [⟨'s', "-1"⟩]).code = 1 ∧
      (∃ st, assembled (stub_env 0 7 9) "prog" [⟨'s', "abc"⟩] = some st ∧
        st.options.scale = 0) ∧
      (∃ st, assembled (stub_env 0 7 9) "prog" [⟨'s', "2.5"⟩] = some st ∧
        st.options.scale = 5 / 2) :=
  have h := scale_flag_examples .both (stub_env 0 7 9) "prog"
  ⟨(h.1 rfl).1,
    (h.2.1 rfl).imp (fun _ hst => ⟨hst.1, hst.2.1⟩),
    (h.2.2 rfl).imp (fun _ hst => ⟨hst.1, hst.2.1⟩)⟩

/-- C7, the claim as stated fails: `-?` does not print help. The scanner's `'?'` shares the
`case` of `-l`, so the preset list is printed and no help text is. -/
theorem question_mark_lists_presets :
    (main .both (stub_env 0 0 0) "prog" [⟨'?', ""⟩]).code = 0 ∧
      (main .both (stub_env 0 0 0) "prog" [⟨'?', ""⟩]).trace = [Event.i18n_list_presets] ∧
      Event.print_help "prog" ∉ (main .both (stub_env 0 0 0) "prog" [⟨'?', ""⟩]).trace :=
  ⟨by decide, by decide, by decide⟩

/-- C7, amended: `-l`, `-h` and `-?` are terminal. For every argument vector in which the
scanner reaches one of them (no terminal or failing flag before it), the process exits with
code 0, no backend entry point is invoked and no fork is performed; `-l` and `-?` print the
preset list and no help, `-h` prints help and no preset list. -/
theorem terminal_flags_exit_zero (b : Build) (env : Env) (prog : String)
    (pre post : List Scanned) (s : Scanned)
    (hpre : ∀ p ∈ pre, ¬ is_decisive env p) (hs : is_terminal s) :
    (main b env prog (pre ++ s :: post)).code = 0 ∧
      backend_calls (main b env prog (pre ++ s :: post)).trace = [] ∧
      Event.fork ∉ (main b env prog (pre ++ s :: post)).trace ∧
      (s.opt = 'l' ∨ s.opt = '?' →
        (main b env prog (pre ++ s :: post)).trace.getLast? = some Event.i18n_list_presets ∧
          ∀ p, Event.print_help p ∉ (main b env prog (pre ++ s :: post)).trace) ∧
      (s.opt = 'h' →
        (main b env prog (pre ++ s :: post)).trace.getLast? = some (Event.print_help prog) ∧
          Event.i18n_list_presets ∉ (main b env prog (pre ++ s :: post)).trace) := by
  obtain ⟨tr, hlog, hmain⟩ := main_at_terminal b env prog pre post s hpre hs
  rw [hmain]
  have hq := quiet_of_log_snoc tr
    (if s.opt = 'h' then Event.print_help prog else Event.i18n_list_presets) hlog
    (by split_ifs <;> rfl) (by split_ifs <;> simp)
  refine ⟨rfl, hq.1, hq.2, fun hl => ?_, fun hh => ?_⟩
  · have hne : ¬ s.opt = 'h' := by
      rcases hl with hl | hl <;> rw [hl] <;> decide
    rw [if_neg hne]
    refine ⟨getLast?_snoc tr _, fun p hp => ?_⟩
    simp only [List.mem_append, List.mem_singleton, reduceCtorEq, or_false] at hp
    exact not_mem_of_log _ hlog _ (by simp [is_log_event]) hp
  · rw [if_pos hh]
    refine ⟨getLast?_snoc tr _, fun hp => ?_⟩
    simp only [List.mem_append, List.mem_singleton, reduceCtorEq, or_false] at hp
    exact not_mem_of_log _ hlog _ (by simp [is_log_event]) hp

/-- Witness for C7 (amended): `-d -v -h -s 2.5`. -/
theorem terminal_flags_exit_zero_witness :
    (main .both (stub_env 0 1 1) "prog"
        ([⟨'d', ""⟩, ⟨'v', ""⟩] ++ ⟨'h', ""⟩ :: [⟨'s', "2.5"⟩])).code = 0 ∧
      backend_calls (main .both (stub_env 0 1 1) "prog"
        ([⟨'d', ""⟩, ⟨'v', ""⟩] ++ ⟨'h', ""⟩ :: [⟨'s', "2.5"⟩])).trace = [] :=
  have h := terminal_flags_exit_zero .both (stub_env 0 1 1) "prog"
    [⟨'d', ""⟩, ⟨'v', ""⟩] [⟨'s', "2.5"⟩] ⟨'h', ""⟩ (by decide) (by decide)
  ⟨h.1, h.2.1⟩

/-- C10: the first decisive flag in scan order decides the outcome. For every argument
vector, if the first flag that is terminal (`-l`, `-h`, `-?`, or an unrecognised option,
all of which the scanner reports as `'l'`, `'h'` or `'?'`) or a failing `-s`/`-c` is
terminal, the exit code is 0; if it is a failing `-s`/`-c`, the exit code is 1; in both
cases no backend is invoked and no fork is performed, whatever precedes (a `-d` included)
and follows; `'?'` exits after listing presets. So `-s -1 -h` exits 1 and `-h -s -1`
exits 0. -/
theorem first_decisive_flag_decides (b : Build) (env : Env) (prog : String) :
    (∀ pre s post, (∀ p ∈ pre, ¬ is_decisive env p) →
      (is_terminal s → (main b env prog (pre ++ s :: post)).code = 0) ∧
      (is_failing env s → (main b env prog (pre ++ s :: post)).code = 1) ∧
      (is_decisive env s →
        backend_calls (main b env prog (pre ++ s :: post)).trace = [] ∧
          Event.fork ∉ (main b env prog (pre ++ s :: post)).trace) ∧
      (s.opt = '?' →
        (main b env prog (pre ++ s :: post)).trace.getLast? =
          some Event.i18n_list_presets)) ∧
    (env.atof "-1" < 0 →
      (main b env prog [⟨'s', "-1"⟩, ⟨'h', ""⟩]).code = 1 ∧
        (main b env prog [⟨'h', ""⟩, ⟨'s', "-1"⟩]).code = 0 ∧
        (main b env prog [⟨'d', ""⟩, ⟨'s', "-1"⟩]).code = 1 ∧
        Event.fork ∉ (main b env prog [⟨'d', ""⟩, ⟨'s', "-1"⟩]).trace) := by
  have hterm : ∀ pre s post, (∀ p ∈ pre, ¬ is_decisive env p) → is_terminal s →
      (main b env prog (pre ++ s :: post)).code = 0 ∧
        (backend_calls (main b env prog (pre ++ s :: post)).trace = [] ∧
          Event.fork ∉ (main b env prog (pre ++ s :: post)).trace) ∧
        (s.opt = '?' → (main b env prog (pre ++ s :: post)).trace.getLast? =
          some Event.i18n_list_presets) := by
    intro pre s post hpre ht
    obtain ⟨tr, hlog, hmain⟩ := main_at_terminal b env prog pre post s hpre ht
    rw [hmain]
    refine ⟨rfl, quiet_of_log_snoc tr _ hlog (by split_ifs <;> rfl)
      (by split_ifs <;> simp), fun hq => ?_⟩
    have hne : ¬ s.opt = 'h' := by rw [hq]; decide
    rw [if_neg hne]
    exact getLast?_snoc tr _
  have hfail : ∀ pre s post, (∀ p ∈ pre, ¬ is_decisive env p) → is_failing env s →
      (main b env prog (pre ++ s :: post)).code = 1 ∧
        (backend_calls (main b env prog (pre ++ s :: post)).trace = [] ∧
          Event.fork ∉ (main b env prog (pre ++ s :: post)).trace) := by
    intro pre s post hpre hf
    obtain ⟨tr, msg, hlog, hmain⟩ := main_at_failing b env prog pre post s hpre hf
    rw [hmain]
    exact ⟨rfl, quiet_of_log_snoc tr (Event.stderr msg) hlog rfl (by simp)⟩
  refine ⟨fun pre s post hpre => ⟨fun ht => (hterm pre s post hpre ht).1,
    fun hf => (hfail pre s post hpre hf).1, fun hd => ?_, fun hq => ?_⟩, fun hneg => ?_⟩
  · rcases hd with ht | hf
    · exact (hterm pre s post hpre ht).2.1
    · exact (hfail pre s post hpre hf).2
  · exact (hterm pre s post hpre (Or.inr (Or.inr hq))).2.2 hq
  · have hf : is_failing env ⟨'s', "-1"⟩ := Or.inl ⟨rfl, hneg⟩
    have hd : ∀ p ∈ [(⟨'d', ""⟩ : Scanned)], ¬ is_decisive env p := by
      intro p hp
      simp only [List.mem_singleton] at hp
      subst hp
      simp [is_decisive, is_terminal, is_failing]
    have h1 := hfail [] ⟨'s', "-1"⟩ [⟨'h', ""⟩] (by simp) hf
    have h2 := hterm [] ⟨'h', ""⟩ [⟨'s', "-1"⟩] (by simp) (Or.inr (Or.inl rfl))
    have h3 := hfail [⟨'d', ""⟩] ⟨'s', "-1"⟩ [] hd hf
    exact ⟨h1.1, h2.1, h3.1, h3.2.2⟩

/-- Witness for C10: with the `atof` double, `-s -1 -h` exits 1 and `-h -s -1` exits 0. -/
theorem first_decisive_flag_decides_witness :
    (main .both (stub_env 0 1 1) "prog" [⟨'s', "-1"⟩, ⟨'h', ""⟩]).code = 1 ∧
      (main .both (stub_env 0 1 1) "prog" [⟨'h', ""⟩, ⟨'s', "-1"⟩]).code = 0 :=
  have h := (first_decisive_flag_decides .both (stub_env 0 1 1) "prog").2 (by decide)
  ⟨h.1, h.2.1⟩

/-! ## Lemmas on `-d` -/

theorem switch_opt_daemonize (env : Env) (prog : String) (o : draw_options) (d d2 : Bool)
    (tr : List Event) (s : Scanned) (a1 : State)
    (h : switch_opt env prog ⟨o, d, tr⟩ s = .ok a1) (hs : s.opt ≠ 'd') :
    switch_opt env prog ⟨o, d2, tr⟩ s = .ok ⟨a1.options, d2, a1.trace⟩ ∧ a1.daemonize = d := by
  by_cases hm : s.opt ∈ case_labels
  · simp only [case_labels, List.mem_cons, List.mem_singleton, List.mem_nil_iff,
      or_false] at hm
    rcases hm with (e | e | e | e | e | e | e | e | e | e | e | e | e | e | e | e | e | e | e)
    all_goals first
      | exact absurd e hs
      | (simp [switch_opt, e] at h ⊢
         subst h
         simp)
      | (simp only [switch_opt, e] at h ⊢
         simp only [Char.reduceEq, if_false, if_true] at h ⊢
         split_ifs at h ⊢ with hneg
         simp only [Except.ok.injEq] at h
         subst h
         simp)
      | simp [switch_opt, e] at h
  · rw [switch_opt_no_label env prog _ s hm] at h
    rw [switch_opt_no_label env prog _ s hm]
    simp only [Except.ok.injEq] at h
    subst h
    simp

theorem scan_loop_without_d (env : Env) (prog : String) (scan : List Scanned)
    (o : draw_options) (d : Bool) (tr : List Event) (a1 : State)
    (h : scan_loop env prog ⟨o, d, tr⟩ scan = .ok a1) :
    scan_loop env prog ⟨o, false, tr⟩ (without_d scan) = .ok ⟨a1.options, false, a1.trace⟩ ∧
      (a1.daemonize = true ↔ d = true ∨ ∃ s ∈ scan, s.opt = 'd') := by
  induction scan generalizing o d tr with
  | nil =>
    simp only [scan_loop, Except.ok.injEq] at h
    subst h
    simp [without_d, scan_loop]
  | cons x xs ih =>
    by_cases hx : x.opt = 'd'
    · have hsw : switch_opt env prog ⟨o, d, tr⟩ x = .ok ⟨o, true, tr⟩ := by
        simp [switch_opt, hx]
      simp only [scan_loop, hsw] at h
      obtain ⟨h1, h2⟩ := ih o true tr h
      have hw : without_d (x :: xs) = without_d xs := by simp [without_d, hx]
      rw [hw]
      refine ⟨h1, ?_⟩
      constructor
      · intro _
        exact Or.inr ⟨x, List.mem_cons_self x xs, hx⟩
      · intro _
        exact h2.mpr (Or.inl rfl)
    · have hw : without_d (x :: xs) = x :: without_d xs := by simp [without_d, hx]
      rw [hw]
      simp only [scan_loop] at h ⊢
      cases hsw : switch_opt env prog ⟨o, d, tr⟩ x with
      | error out => rw [hsw] at h; cases h
      | ok a2 =>
        rw [hsw] at h
        obtain ⟨h3, h4⟩ := switch_opt_daemonize env prog o d false tr x a2 hsw hx
        rw [h3]
        obtain ⟨o2, d2, tr2⟩ := a2
        simp only at h4
        subst h4
        obtain ⟨h1, h2⟩ := ih o2 d2 tr2 h
        refine ⟨h1, ?_⟩
        rw [h2]
        constructor
        · rintro (hd | ⟨s, hs, hsd⟩)
          · exact Or.inl hd
          · exact Or.inr ⟨s, List.mem_cons_of_mem x hs, hsd⟩
        · rintro (hd | ⟨s, hs, hsd⟩)
          · exact Or.inl hd
          · rcases List.mem_cons.mp hs with rfl | hs
            · exact absurd hsd hx
            · exact Or.inr ⟨s, hs, hsd⟩

theorem assembled_without_d (env : Env) (prog : String) (scan : List Scanned) (st : State)
    (h : assembled env prog scan = some st) :
    assembled env prog (without_d scan) = some ⟨st.options, false, st.trace⟩ ∧
      (st.daemonize = true ↔ ∃ s ∈ scan, s.opt = 'd') := by
  rw [assembled_eq_some] at h
  obtain ⟨h1, h2⟩ := scan_loop_without_d env prog scan _ false [] st h
  refine ⟨(assembled_eq_some env prog _ _).mpr h1, ?_⟩
  rw [h2]
  simp

theorem wayland_section_trace (b : Build) (env : Env) (o : draw_options) (tr : List Event) :
    wayland_section b env o tr =
      ⟨(wayland_section b env o []).code, tr ++ (wayland_section b env o []).trace⟩ := by
  cases b with
  | both =>
    rw [wayland_section_both, wayland_section_both]
    split_ifs <;> rfl
  | wayland_only => rw [wayland_section_wayland_only, wayland_section_wayland_only]; rfl
  | x11_only => rw [wayland_section_x11_only, wayland_section_x11_only]; rfl

theorem wayland_section_no_fork (b : Build) (env : Env) (o : draw_options) :
    Event.fork ∉ (wayland_section b env o []).trace ∧
      Event.setsid ∉ (wayland_section b env o []).trace := by
  cases b with
  | both =>
    rw [wayland_section_both]
    split_ifs <;> simp
  | wayland_only => rw [wayland_section_wayland_only]; simp
  | x11_only => rw [wayland_section_x11_only]; simp

/-! ## Daemonization (C8, C9) -/

/-- C8, the code at the failing input: `-d` with `fork()` returning -1. Neither branch of
lines 178-182 is taken; `main` goes on in the foreground, invokes the Wayland double, and
exits with its status 0 as if nothing had failed. -/
theorem fork_failure_continues_in_foreground :
    (stub_env (-1) 0 0).fork < 0 ∧
      (main .both (stub_env (-1) 0 0) "prog" [⟨'d', ""⟩]).code = 0 ∧
      (backend_calls (main .both (stub_env (-1) 0 0) "prog" [⟨'d', ""⟩]).trace).map Prod.fst =
        [Backend.wayland] ∧
      Event.fork ∈ (main .both (stub_env (-1) 0 0) "prog" [⟨'d', ""⟩]).trace ∧
      Event.setsid ∉ (main .both (stub_env (-1) 0 0) "prog" [⟨'d', ""⟩]).trace :=
  ⟨by decide, by decide, by decide, by decide, by decide⟩

/-- C9: when `-d` is given and configuration assembly succeeds (`daemonize` is set exactly
when some scanned flag is `-d`), the fork comes before any backend invocation. In the
parent (`fork` returns a positive pid) the process exits with code 0 and has invoked no
backend, whatever the backends would return. In the child (`fork` returns 0) the trace is
the option loop's, then the fork and `setsid`, then the backend attempts; these receive
the assembled options, which are those assembled without `-d`, and the backend
invocations and exit code are those of the run without `-d`. Without `-d` neither `fork`
nor `setsid` is called. -/
theorem daemonize_detaches_before_backends (b : Build) (env : Env) (prog : String)
    (scan : List Scanned) :
    (∀ st, assembled env prog scan = some st →
      (st.daemonize = true ↔ ∃ s ∈ scan, s.opt = 'd') ∧
      (st.daemonize = true → 0 < env.fork →
        (main b env prog scan).code = 0 ∧
          backend_calls (main b env prog scan).trace = [] ∧
          Event.fork ∈ (main b env prog scan).trace) ∧
      (st.daemonize = true → env.fork = 0 →
        ∃ tail,
          (main b env prog scan).trace =
            st.trace ++ [Event.debug "Verbose mode activated\n",
              Event.debug "Forking to background\n", Event.fork, Event.setsid] ++ tail ∧
          backend_calls st.trace = [] ∧
          (∀ p ∈ backend_calls tail, p.2 = st.options) ∧
          (∃ st0, assembled env prog (without_d scan) = some st0 ∧
            st0.options = st.options) ∧
          backend_calls tail = backend_calls (main b env prog (without_d scan)).trace ∧
          (main b env prog scan).code = (main b env prog (without_d scan)).code)) ∧
    ((∀ s ∈ scan, s.opt ≠ 'd') →
      Event.fork ∉ (main b env prog scan).trace ∧
        Event.setsid ∉ (main b env prog scan).trace) := by
  constructor
  · intro st hst
    obtain ⟨hwd, hiff⟩ := assembled_without_d env prog scan st hst
    have hlog := (assembled_inv env prog scan st hst).1
    refine ⟨hiff, fun hd hpos => ?_, fun hd h0 => ?_⟩
    · rw [main_of_assembled b env prog scan st hst, after_loop_parent b env st hd hpos]
      refine ⟨rfl, ?_, by simp⟩
      show backend_calls (st.trace ++ _) = []
      rw [backend_calls_append, backend_calls_of_log _ hlog]
      rfl
    · have hmain : main b env prog scan =
          wayland_section b env st.options (st.trace ++
            [Event.debug "Verbose mode activated\n", Event.debug "Forking to background\n",
              Event.fork, Event.setsid]) := by
        rw [main_of_assembled b env prog scan st hst]
        simp [after_loop, hd, h0]
      have hmain0 : main b env prog (without_d scan) =
          wayland_section b env st.options (st.trace ++
            [Event.debug "Verbose mode activated\n"]) := by
        rw [main_of_assembled b env prog _ _ hwd]
        simp [after_loop]
      rw [wayland_section_trace] at hmain hmain0
      refine ⟨(wayland_section b env st.options []).trace, ?_, backend_calls_of_log _ hlog,
        ?_, ⟨_, hwd, rfl⟩, ?_, ?_⟩
      · rw [hmain]
      · obtain ⟨rest, hcalls, hrest⟩ := wayland_section_calls b env st.options []
        rw [hcalls]
        intro p hp
        simp only [backend_calls, List.nil_append, List.mem_cons] at hp
        rcases hp with hp | hp
        · rw [hp]
        · exact hrest p hp
      · rw [hmain0]
        show _ = backend_calls (st.trace ++ _ ++ _)
        rw [backend_calls_append, backend_calls_append, backend_calls_of_log _ hlog]
        rfl
      · rw [hmain, hmain0]
  · intro hnod
    cases hst : assembled env prog scan with
    | none => exact (main_of_not_assembled b env prog scan hst).2
    | some st =>
      have hlog := (assembled_inv env prog scan st hst).1
      have hd : ¬ st.daemonize = true := by
        rw [(assembled_without_d env prog scan st hst).2]
        rintro ⟨s, hs, hsd⟩
        exact hnod s hs hsd
      have hmain : main b env prog scan =
          wayland_section b env st.options (st.trace ++
            [Event.debug "Verbose mode activated\n"]) := by
        rw [main_of_assembled b env prog scan st hst]
        simp [after_loop, hd]
      rw [wayland_section_trace] at hmain
      rw [hmain]
      obtain ⟨hf, hs⟩ := wayland_section_no_fork b env st.options
      simp only [List.mem_append, List.mem_singleton, reduceCtorEq, or_false, not_or]
      exact ⟨⟨not_mem_of_log _ hlog _ (by simp [is_log_event]), hf⟩,
        ⟨not_mem_of_log _ hlog _ (by simp [is_log_event]), hs⟩⟩

/-- Witness for C9: `-d -b` in the parent (pid 4242), with backend doubles that would
return 1 and 5. -/
theorem daemonize_detaches_before_backends_witness :
    (main .both (stub_env 4242 1 5) "prog" [⟨'d', ""⟩, ⟨'b', ""⟩]).code = 0 ∧
      backend_calls (main .both (stub_env 4242 1 5) "prog" [⟨'d', ""⟩, ⟨'b', ""⟩]).trace
        = [] :=
  have h := ((daemonize_detaches_before_backends .both (stub_env 4242 1 5) "prog"
    [⟨'d', ""⟩, ⟨'b', ""⟩]).1 _ rfl).2.1 rfl (by decide)
  ⟨h.1, h.2.1⟩

/-! ## Flag order (C6) -/

theorem switch_opt_texts (env : Env) (prog : String) (st st1 : State) (s : Scanned)
    (h : switch_opt env prog st s = .ok st1) (hp : s.opt ≠ 'p') :
    (s.opt ≠ 't' → st1.options.title = st.options.title) ∧
      (s.opt ≠ 'm' → st1.options.subtitle = st.options.subtitle) := by
  by_cases hm : s.opt ∈ case_labels
  · simp only [case_labels, List.mem_cons, List.mem_singleton, List.mem_nil_iff,
      or_false] at hm
    rcases hm with (e | e | e | e | e | e | e | e | e | e | e | e | e | e | e | e | e | e | e)
    all_goals first
      | exact absurd e hp
      | (simp [switch_opt, e] at h
         subst h
         simp [e])
      | (simp only [switch_opt, e] at h
         simp only [Char.reduceEq, if_false, if_true] at h
         split_ifs at h
         simp only [Except.ok.injEq] at h
         subst h
         simp)
      | simp [switch_opt, e] at h
  · rw [switch_opt_no_label env prog _ s hm] at h
    simp only [Except.ok.injEq] at h
    subst h
    simp

theorem scan_loop_title (env : Env) (prog : String) (post : List Scanned) (st st1 : State)
    (h : scan_loop env prog st post = .ok st1)
    (hpost : ∀ q ∈ post, q.opt ≠ 'p' ∧ q.opt ≠ 't') :
    st1.options.title = st.options.title := by
  induction post generalizing st with
  | nil =>
    simp only [scan_loop, Except.ok.injEq] at h
    rw [h]
  | cons x xs ih =>
    simp only [scan_loop] at h
    cases hx : switch_opt env prog st x with
    | error out => rw [hx] at h; cases h
    | ok st2 =>
      rw [hx] at h
      have hq := hpost x (List.mem_cons_self x xs)
      rw [ih st2 h (fun q hq => hpost q (List.mem_cons_of_mem x hq)),
        (switch_opt_texts env prog st st2 x hx hq.1).1 hq.2]

theorem scan_loop_subtitle (env : Env) (prog : String) (post : List Scanned) (st st1 : State)
    (h : scan_loop env prog st post = .ok st1)
    (hpost : ∀ q ∈ post, q.opt ≠ 'p' ∧ q.opt ≠ 'm') :
    st1.options.subtitle = st.options.subtitle := by
  induction post generalizing st with
  | nil =>
    simp only [scan_loop, Except.ok.injEq] at h
    rw [h]
  | cons x xs ih =>
    simp only [scan_loop] at h
    cases hx : switch_opt env prog st x with
    | error out => rw [hx] at h; cases h
    | ok st2 =>
      rw [hx] at h
      have hq := hpost x (List.mem_cons_self x xs)
      rw [ih st2 h (fun q hq => hpost q (List.mem_cons_of_mem x hq)),
        (switch_opt_texts env prog st st2 x hx hq.1).2 hq.2]

/-- A successful scan of `pre ++ s :: post` splits at `s`. -/
theorem assembled_split (env : Env) (prog : String) (pre post : List Scanned) (s : Scanned)
    (st : State) (h : assembled env prog (pre ++ s :: post) = some st) :
    ∃ st0 st1, switch_opt env prog st0 s = .ok st1 ∧ scan_loop env prog st1 post = .ok st := by
  rw [assembled_eq_some, scan_loop_append] at h
  cases h0 : scan_loop env prog (init_state env) pre with
  | error out => rw [h0] at h; cases h
  | ok st0 =>
    rw [h0] at h
    simp only [scan_loop] at h
    cases h1 : switch_opt env prog st0 s with
    | error out => rw [h1] at h; cases h
    | ok st1 =>
      rw [h1] at h
      exact ⟨st0, st1, h1, h⟩

/-- C6: flags are applied in the order they appear and the last writer of the title (or
subtitle) wins. If the preset resolver assigns title `pt` and subtitle `ps` for the preset
`P`, then `-p P -t T` yields title `T`, `-t T -p P` yields title `pt`, `-p P -m T` yields
subtitle `T` and `-m T -p P` yields subtitle `ps`; in general, in any argument vector that
passes configuration assembly, the last of the flags `-p`, `-t` fixes the title and the
last of `-p`, `-m` fixes the subtitle, whatever the autodetecting call
`i18n_set_info(NULL)` and the earlier flags had stored. -/
theorem last_text_writer_wins (env : Env) (prog : String) (P T pt ps : String)
    (hP : ∀ o, env.i18n_texts (some P) o = (some pt, some ps)) :
    (∃ st, assembled env prog [⟨'p', P⟩, ⟨'t', T⟩] = some st ∧
      st.options.title = some T) ∧
    (∃ st, assembled env prog [⟨'t', T⟩, ⟨'p', P⟩] = some st ∧
      st.options.title = some pt) ∧
    (∃ st, assembled env prog [⟨'p', P⟩, ⟨'m', T⟩] = some st ∧
      st.options.subtitle = some T) ∧
    (∃ st, assembled env prog [⟨'m', T⟩, ⟨'p', P⟩] = some st ∧
      st.options.subtitle = some ps) ∧
    (∀ pre post st, (∀ q ∈ post, q.opt ≠ 'p' ∧ q.opt ≠ 't') →
      (assembled env prog (pre ++ ⟨'t', T⟩ :: post) = some st →
        st.options.title = some T) ∧
      (assembled env prog (pre ++ ⟨'p', P⟩ :: post) = some st →
        st.options.title = some pt)) ∧
    (∀ pre post st, (∀ q ∈ post, q.opt ≠ 'p' ∧ q.opt ≠ 'm') →
      (assembled env prog (pre ++ ⟨'m', T⟩ :: post) = some st →
        st.options.subtitle = some T) ∧
      (assembled env prog (pre ++ ⟨'p', P⟩ :: post) = some st →
        st.options.subtitle = some ps)) := by
  refine ⟨⟨_, rfl, rfl⟩, ⟨_, rfl, ?_⟩, ⟨_, rfl, rfl⟩, ⟨_, rfl, ?_⟩, ?_, ?_⟩
  · show (env.i18n_texts (some P) _).1 = some pt
    rw [hP]
  · show (env.i18n_texts (some P) _).2 = some ps
    rw [hP]
  · intro pre post st hpost
    constructor
    · intro h
      obtain ⟨st0, st1, h1, h2⟩ := assembled_split env prog pre post _ st h
      rw [scan_loop_title env prog post st1 st h2 hpost]
      simp [switch_opt] at h1
      rw [← h1]
    · intro h
      obtain ⟨st0, st1, h1, h2⟩ := assembled_split env prog pre post _ st h
      rw [scan_loop_title env prog post st1 st h2 hpost]
      simp [switch_opt] at h1
      rw [← h1]
      show (env.i18n_texts (some P) _).1 = some pt
      rw [hP]
  · intro pre post st hpost
    constructor
    · intro h
      obtain ⟨st0, st1, h1, h2⟩ := assembled_split env prog pre post _ st h
      rw [scan_loop_subtitle env prog post st1 st h2 hpost]
      simp [switch_opt] at h1
      rw [← h1]
    · intro h
      obtain ⟨st0, st1, h1, h2⟩ := assembled_split env prog pre post _ st h
      rw [scan_loop_subtitle env prog post st1 st h2 hpost]
      simp [switch_opt] at h1
      rw [← h1]
      show (env.i18n_texts (some P) _).2 = some ps
      rw [hP]

/-- Witness for C6: the preset `work` of the resolver double and the title `Custom`. -/
theorem last_text_writer_wins_witness :
    (∃ st, assembled (stub_env 0 0 0) "prog" [⟨'p', "work"⟩, ⟨'t', "Custom"⟩] = some st ∧
      st.options.title = some "Custom") ∧
    (∃ st, assembled (stub_env 0 0 0) "prog" [⟨'t', "Custom"⟩, ⟨'p', "work"⟩] = some st ∧
      st.options.title = some "Activate Work") :=
  have h := last_text_writer_wins (stub_env 0 0 0) "prog" "work" "Custom" "Activate Work"
    "Go to Settings to activate Work." (fun _ => rfl)
  ⟨h.1, h.2.1⟩

end ActivateLinux
